import Mathlib

/-!
Verification of the nexusforest-mcp data pipeline and query layer.

The Lean definitions below are a shallow embedding of the Python source:
* `src/nexus/data/database/query_executor.py` (WHERE-clause builder, transactions),
* `src/nexus/data/pipeline/cleaners.py` (country names, negatives, thresholds, years),
* `src/nexus/data/pipeline/validators.py` and `loaders.py` (completeness, relationships),
* `src/nexus/data/pipeline/transformers.py`, `database/schema.py` / `views.py`,
  `main.py` (export path and the `v_primary_forest_percentage` view),
* `src/nexus/mcp/mcp_stdio_server.py` (the `query_carbon_data` tool handler).

Numeric database values (SQLite REAL / polars Float64) are modelled as `ℚ`;
the properties checked here are exact-arithmetic properties of the formulas,
not floating-point rounding behaviour.  Python/SQLite nulls are `Option`.
-/

namespace NexusForest

/-- Substring test on character lists: `needle` occurs contiguously in the list. -/
def listInfix (needle : List Char) : List Char → Bool
  | [] => needle.isEmpty
  | c :: cs => needle.isPrefixOf (c :: cs) || listInfix needle cs

/-- Python's `needle in hay` substring test on strings. -/
def strContainsSub (hay needle : String) : Bool :=
  listInfix needle.data hay.data

/-- Python's `str.isalnum()` restricted to the ASCII letters/digits that appear in
this code base: true iff the string is nonempty and every character is alphanumeric. -/
def pyIsAlnum (s : String) : Bool :=
  !s.data.isEmpty && s.data.all Char.isAlphanum

/-- Column-name validation from `QueryExecutor.build_where_clause`:
`column.replace('_', '').isalnum()`. -/
def validColumnName (column : String) : Bool :=
  pyIsAlnum (String.mk (column.data.filter (fun c => c ≠ '_')))

/-- A scalar SQL parameter value (string or integer suffice for the claims). -/
inductive Prim
  | pstr (s : String)
  | pint (n : Int)
deriving DecidableEq, Repr

/-- A Python value appearing in a condition map: `None`, a scalar, or a list/tuple. -/
inductive PyValue
  | vnone
  | vprim (p : Prim)
  | vlist (elems : List Prim)
deriving DecidableEq, Repr

/-- `','.join('?' * len(value))`: `n` question marks separated by commas. -/
def placeholders : Nat → String
  | 0 => ""
  | 1 => "?"
  | n + 2 => "?," ++ placeholders (n + 1)

/-- The loop body of `build_where_clause`: walk the condition entries in order,
validating each column name, and collect the clause fragments and parameters.
Raising `ValueError` is modelled as `Except.error`. -/
def whereParts : List (String × PyValue) → Except String (List String × List Prim)
  | [] => .ok ([], [])
  | (column, value) :: rest =>
    if validColumnName column then
      let part : String :=
        match value with
        | .vnone => column ++ " IS NULL"
        | .vlist elems => column ++ " IN (" ++ placeholders elems.length ++ ")"
        | .vprim _ => column ++ " = ?"
      let ps : List Prim :=
        match value with
        | .vnone => []
        | .vlist elems => elems
        | .vprim p => [p]
      match whereParts rest with
      | .ok (parts, params) => .ok (part :: parts, ps ++ params)
      | .error e => .error e
    else
      .error ("Invalid column name: " ++ column)

/-- `QueryExecutor.build_where_clause` (query_executor.py lines 221-263).
Conditions are an ordered association list, matching Python dict iteration order. -/
def build_where_clause (conditions : List (String × PyValue)) :
    Except String (String × List Prim) :=
  if conditions.isEmpty then .ok ("", [])
  else
    match whereParts conditions with
    | .ok (parts, params) => .ok ("WHERE " ++ String.intercalate " AND " parts, params)
    | .error e => .error e

/-- Number of `?` placeholders in a SQL fragment. -/
def countQMarks (s : String) : Nat :=
  s.data.count '?'

/-- The clause fragment the spec assigns to one accepted condition entry. -/
def entryClause : String × PyValue → String
  | (column, .vnone) => column ++ " IS NULL"
  | (column, .vlist elems) => column ++ " IN (" ++ placeholders elems.length ++ ")"
  | (column, .vprim _) => column ++ " = ?"

/-- The parameters the spec assigns to one accepted condition entry. -/
def entryParams : String × PyValue → List Prim
  | (_, .vnone) => []
  | (_, .vlist elems) => elems
  | (_, .vprim p) => [p]

/-! ## Transactions (`QueryExecutor.execute_transaction`, query_executor.py 142-185)

The SQLite connection is abstracted as a state type `DB` together with a
per-statement semantics `exec : DB → SqlOp → Except String DB`; a failing
statement leaves no partial effect of its own, matching SQLite statement
atomicity.  `BEGIN TRANSACTION` / `commit` / `rollback` are modelled by
running the statements on a working state and either publishing it (commit)
or discarding it and re-raising (rollback). -/

/-- One `(sql, params)` operation handed to `execute_transaction`. -/
structure SqlOp where
  sql : String
  params : List Prim
deriving DecidableEq, Repr

/-- The `for sql, params in operations` loop: run each statement in order on the
connection's working state, stopping at the first failure. -/
def applyOps {DB : Type} (exec : DB → SqlOp → Except String DB) (db : DB) :
    List SqlOp → Except String DB
  | [] => .ok db
  | op :: rest =>
    match exec db op with
    | .ok db2 => applyOps exec db2 rest
    | .error e => .error e

/-- Result of `execute_transaction`: the durable database state after the call, and
either `true` (the Python return value on success) or the re-raised error. -/
structure TxnOutcome (DB : Type) where
  committed : DB
  result : Except String Bool

/-- `QueryExecutor.execute_transaction`: begin, run all operations, commit on
success; on any failure roll back to the pre-transaction state and re-raise. -/
def execute_transaction {DB : Type} (exec : DB → SqlOp → Except String DB)
    (db : DB) (operations : List SqlOp) : TxnOutcome DB :=
  match applyOps exec db operations with
  | .ok db2 => ⟨db2, .ok true⟩
  | .error e => ⟨db, .error e⟩

/-! ## Dataframe model for the cleaner operations (cleaners.py)

A polars dataframe is modelled as an ordered list of named columns.  The
cleaner operations touch string columns (`country`) and numeric columns
(`threshold`, `year`, value columns); a column is one or the other.  Cells are
`Option` values (`none` = polars null).  Operations are only ever applied by
the source to columns of the matching type (applying a string operation to a
numeric column raises in polars); on a column of the other type the model
leaves the column unchanged, and the theorems below quantify only over frames
of the type the source handles. -/

/-- A polars column: non-numeric (Utf8) or numeric (Int/Float, modelled as `ℚ`). -/
inductive Column
  | strCol (cells : List (Option String))
  | numCol (cells : List (Option ℚ))
deriving DecidableEq, Repr

/-- A dataframe: named columns in order. -/
abbrev DataFrame := List (String × Column)

/-- The dataframe's column names (`df.columns`). -/
def columnsOf (df : DataFrame) : List String :=
  df.map Prod.fst

/-- First column with the given name, if any. -/
def lookupCol (df : DataFrame) (name : String) : Option Column :=
  (df.find? (fun nc => nc.1 == name)).map Prod.snd

/-- The `country_mappings` alias table of `DataCleaner.clean_country_names`,
in source order. -/
def countryMappings : List (String × String) :=
  [("USA", "United States"),
   ("US", "United States"),
   ("United States of America", "United States"),
   ("UK", "United Kingdom"),
   ("Britain", "United Kingdom"),
   ("DRC", "Democratic Republic of the Congo"),
   ("Congo, Dem. Rep.", "Democratic Republic of the Congo"),
   ("CAR", "Central African Republic"),
   ("Burma", "Myanmar"),
   ("Holland", "Netherlands"),
   ("Cote d\x27Ivoire", "Côte d\x27Ivoire"),
   ("Ivory Coast", "Côte d\x27Ivoire"),
   ("French Guyana", "French Guiana"),
   ("Virgin Islands", "U.S. Virgin Islands")]

/-- The `for old_name, new_name in country_mappings.items()` loop: each mapping is
applied to the whole column by exact match, sequentially; per cell this is a fold
over the mapping list. -/
def applyMappings (s : String) : String :=
  countryMappings.foldl (fun acc kv => if acc = kv.1 then kv.2 else acc) s

/-- Polars `str.strip_chars()` with no argument: remove leading and trailing
whitespace. -/
def stripChars (s : String) : String :=
  String.mk (((s.data.dropWhile Char.isWhitespace).reverse.dropWhile Char.isWhitespace).reverse)

/-- One country cell: alias mappings first, then `str.strip_chars()` (whitespace
trim).  A null country stays null (`pl.when` on a null comparison keeps the
original column value, and string ops propagate null). -/
def cleanCountryCell : Option String → Option String
  | none => none
  | some s => some (stripChars (applyMappings s))

/-- Apply `clean_country_names`'s cell transformation to a column. -/
def mapCountryColumn : Column → Column
  | .strCol cells => .strCol (cells.map cleanCountryCell)
  | .numCol cells => .numCol cells

/-- `DataCleaner.clean_country_names` (cleaners.py 24-85): no-op when the frame
has no `country` column, otherwise alias-map and trim that column. -/
def clean_country_names (df : DataFrame) : DataFrame :=
  if "country" ∈ columnsOf df then
    df.map (fun nc => if nc.1 = "country" then (nc.1, mapCountryColumn nc.2) else nc)
  else df

/-- One numeric cell under `fix_negative_values`: negative non-null values become
null (`pl.when(col < 0).then(None)`); nulls and non-negatives are unchanged. -/
def fixNegCell : Option ℚ → Option ℚ
  | none => none
  | some v => if v < 0 then none else some v

/-- Apply `fix_negative_values`'s cell transformation to a column. -/
def fixNegColumn : Column → Column
  | .numCol cells => .numCol (cells.map fixNegCell)
  | .strCol cells => .strCol cells

/-- `DataCleaner.fix_negative_values` (cleaners.py 87-128): for each named column,
skip it if absent, skip it if its name contains `net_flux` or `removals`
(legitimately negative carbon sinks), otherwise null out negative values.
(The source rewrites only when the negative count is positive; rewriting a
column with no negatives is the identity, so the guard is behaviourally inert.) -/
def fix_negative_values (df : DataFrame) (columns : List String) : DataFrame :=
  columns.foldl
    (fun acc col =>
      if col ∈ columnsOf acc then
        if strContainsSub col "net_flux" || strContainsSub col "removals" then acc
        else acc.map (fun nc => if nc.1 = col then (nc.1, fixNegColumn nc.2) else nc)
      else acc)
    df

/-- The canonical threshold list `valid_thresholds`, in declaration order. -/
def validThresholds : List Int :=
  [0, 10, 15, 20, 25, 30, 50, 75]

/-- Python's `min(l, key=f)` scan with a starting accumulator: the accumulator is
replaced only on a strictly smaller key, so the first minimizer wins. -/
def pyMinBy (f : Int → ℚ) (acc : Int) : List Int → Int
  | [] => acc
  | v :: rest => if f v < f acc then pyMinBy f v rest else pyMinBy f acc rest

/-- `min(valid_thresholds, key=lambda v: abs(v - x))` for a non-null threshold
`x` (the `x is None` branch of the lambda is unreachable at runtime:
`map_elements` skips nulls).  `getD 0` covers the impossible empty-list case. -/
def nearestThreshold (x : ℚ) : Int :=
  match validThresholds with
  | [] => 0
  | v :: rest => pyMinBy (fun w => |(w : ℚ) - x|) v rest

/-- One threshold cell under `validate_thresholds`: values already canonical are
kept; other non-null values snap to the nearest canonical value (cast to
integer); nulls stay null — `map_elements` skips them and the invalid-row mask
is null/excluded on them, so neither path rewrites a null. -/
def thresholdCell : Option ℚ → Option ℚ
  | none => none
  | some x =>
    if validThresholds.any (fun v => decide ((v : ℚ) = x)) then some x
    else some ((nearestThreshold x : Int) : ℚ)

/-- Apply `validate_thresholds`'s cell transformation to a column. -/
def mapThresholdColumn : Column → Column
  | .numCol cells => .numCol (cells.map thresholdCell)
  | .strCol cells => .strCol cells

/-- `DataCleaner.validate_thresholds` (cleaners.py 210-245): no-op when the frame
has no `threshold` column, otherwise snap invalid thresholds to the nearest
canonical value.  (The source rewrites only when some invalid non-null value
exists; otherwise the rewrite is the identity, so the guard is inert.) -/
def validate_thresholds (df : DataFrame) : DataFrame :=
  if "threshold" ∈ columnsOf df then
    df.map (fun nc => if nc.1 = "threshold" then (nc.1, mapThresholdColumn nc.2) else nc)
  else df

/-- Row mask for `validate_years`: keep rows whose year is in range; a null year
yields a null comparison, which the filter drops. -/
def yearKeep (minYear maxYear : Int) : Option ℚ → Bool
  | none => false
  | some y => decide ((minYear : ℚ) ≤ y ∧ y ≤ (maxYear : ℚ))

/-- Keep the cells whose mask bit is true (row filtering). -/
def applyMask {α : Type} : List Bool → List α → List α
  | b :: bs, x :: xs => if b then x :: applyMask bs xs else applyMask bs xs
  | _, _ => []

/-- Filter a column by a row mask. -/
def maskColumn (mask : List Bool) : Column → Column
  | .strCol cells => .strCol (applyMask mask cells)
  | .numCol cells => .numCol (applyMask mask cells)

/-- `DataCleaner.validate_years` (cleaners.py 247-273): no-op when the frame has
no `year` column, otherwise drop rows whose year is outside
`[min_year, max_year]` (defaults 2001/2024 at the call sites). -/
def validate_years (df : DataFrame) (minYear maxYear : Int) : DataFrame :=
  if "year" ∈ columnsOf df then
    match lookupCol df "year" with
    | some (.numCol cells) =>
      let mask := cells.map (yearKeep minYear maxYear)
      df.map (fun nc => (nc.1, maskColumn mask nc.2))
    | _ => df
  else df

/-! ## Post-transform validators (validators.py) and ingestion validator (loaders.py) -/

/-- `ValidationResult` (validators.py 25-34); the optional `details` map is not
read by any claim and is omitted. -/
structure ValidationResult where
  passed : Bool
  message : String
  severity : String
deriving DecidableEq, Repr

/-- A long-format row of the tree-cover fact table as read by
`validate_relationships` (only the columns it touches). -/
structure TreeLongRow where
  country : String
  year : Int
  threshold : Int
  tree_cover_loss_ha : Option ℚ
deriving DecidableEq, Repr

/-- A long-format row of the primary-forest fact table as read by
`validate_relationships`. -/
structure PrimaryLongRow where
  country : String
  year : Int
  primary_forest_loss_ha : Option ℚ
deriving DecidableEq, Repr

/-- The join in `validate_relationships`: tree-cover restricted to threshold 30,
inner-joined with primary-forest on (country, year): every matching pair of
rows appears once. -/
def joinTreePrimary (tree : List TreeLongRow) (primary : List PrimaryLongRow) :
    List (TreeLongRow × PrimaryLongRow) :=
  (tree.filter (fun t => t.threshold == 30)).flatMap fun t =>
    (primary.filter (fun p => p.country == t.country && p.year == t.year)).map
      fun p => (t, p)

/-- The violation predicate of `validate_relationships`: primary loss strictly
exceeds total loss, both values non-null (a null comparison is null and is
dropped by the filter, and the source also conjoins two `is_not_null` checks). -/
def relViolation (tp : TreeLongRow × PrimaryLongRow) : Bool :=
  match tp.1.tree_cover_loss_ha, tp.2.primary_forest_loss_ha with
  | some t, some p => decide (p > t)
  | _, _ => false

/-- `DataValidator.validate_relationships` (validators.py 413-456). -/
def validate_relationships (tree : List TreeLongRow) (primary : List PrimaryLongRow) :
    ValidationResult :=
  let violations := (joinTreePrimary tree primary).filter relViolation
  if violations.length > 0 then
    { passed := false
      message := "Found " ++ toString violations.length ++
        " cases where primary forest loss exceeds total forest loss"
      severity := "error" }
  else
    { passed := true
      message := "Primary forest loss correctly bounded by total forest loss"
      severity := "info" }

/-- Nulls in a column (`Series.null_count()`). -/
def nullCount : Column → Nat
  | .strCol cells => cells.countP Option.isNone
  | .numCol cells => cells.countP Option.isNone

/-- Cells in a column. -/
def colHeight : Column → Nat
  | .strCol cells => cells.length
  | .numCol cells => cells.length

/-- `len(df)`: the frame's height (polars guarantees all columns share it; the
theorems about completeness carry that as a well-formedness hypothesis). -/
def dfHeight (df : DataFrame) : Nat :=
  match df with
  | [] => 0
  | nc :: _ => colHeight nc.2

/-- Whether a column's dtype is in `[pl.Float32, pl.Float64, pl.Int32, pl.Int64]`:
in this model exactly the numeric columns. -/
def isNumericCol : Column → Bool
  | .numCol _ => true
  | .strCol _ => false

namespace Loaders

/-- Ingestion-stage `DataValidator.check_data_completeness` (loaders.py 246-270):
fraction of non-null cells over all columns (the `threshold` argument only
drives a log line and does not affect the return value). -/
def check_data_completeness (df : DataFrame) : ℚ :=
  let total_cells : Nat := dfHeight df * df.length
  if total_cells = 0 then 0
  else
    let null_cells : Nat := (df.map (fun nc => nullCount nc.2)).sum
    1 - (null_cells : ℚ) / (total_cells : ℚ)

end Loaders

namespace Validators

/-- Post-transform `DataValidator.check_data_completeness` (validators.py
337-377): fraction of non-null cells over numeric columns only; `0` for an
empty frame, `1` when no numeric column exists (the `threshold` argument only
drives a log line). -/
def check_data_completeness (df : DataFrame) : ℚ :=
  let total_cells : Nat := dfHeight df * df.length
  if total_cells = 0 then 0
  else
    let numericCols := df.filter (fun nc => isNumericCol nc.2)
    let null_cells : Nat := (numericCols.map (fun nc => nullCount nc.2)).sum
    let total_numeric_cells : Nat := dfHeight df * numericCols.length
    if total_numeric_cells = 0 then 1
    else 1 - (null_cells : ℚ) / (total_numeric_cells : ℚ)

end Validators

/-! ## Export path and the `v_primary_forest_percentage` view (C7)

The pipeline (`main.py` step 3-5) takes the wide Excel frames through
`clean_country_names`, `fix_negative_values` (tree frame: the named column
`tree_cover_loss_ha` does not exist in the wide layout, so only
`extent_2000_ha` is affected; the primary frame is not passed through it at
all), the transformers, and `export_dataframe`, which inserts the transformed
rows unchanged.  Validation results never block the run (`main.py`:
"Continue anyway for now").  The wide frames are modelled with their
`tc_loss_ha_<year>` columns as a year list shared by all rows plus a per-row
value list of the same length; the transformer sort steps only permute rows
and are omitted (no claim here is order-sensitive). -/

/-- A row of the wide tree-cover sheet (the columns the path reads). -/
structure TreeWideRow where
  country : String
  threshold : Int
  extent_2000_ha : Option ℚ
  losses : List (Option ℚ)
deriving DecidableEq, Repr

/-- The wide tree-cover frame: the years of its `tc_loss_ha_<year>` columns plus
its rows. -/
structure TreeWide where
  years : List Int
  rows : List TreeWideRow
deriving DecidableEq, Repr

/-- A row of the wide primary-loss sheet. -/
structure PrimWideRow where
  country : String
  losses : List (Option ℚ)
deriving DecidableEq, Repr

/-- The wide primary-loss frame. -/
structure PrimWide where
  years : List Int
  rows : List PrimWideRow
deriving DecidableEq, Repr

/-- A row of `fact_tree_cover_loss` as produced by `TreeCoverTransformer`
(columns the view or its bound read; `is_tropical`-style extras do not exist
here). -/
structure TreeFactRow where
  country : String
  threshold : Int
  extent_2000_ha : Option ℚ
  year : Int
  tree_cover_loss_ha : Option ℚ
  loss_rate_pct : Option ℚ
  data_quality_flag : String
deriving DecidableEq, Repr

/-- A row of `fact_primary_forest` as produced by `PrimaryForestTransformer`
(the `is_tropical` flag is not read by the view and is omitted). -/
structure PrimFactRow where
  country : String
  year : Int
  threshold : Int
  primary_forest_loss_ha : Option ℚ
  loss_status : String
deriving DecidableEq, Repr

/-- `BaseTransformer._add_data_quality_flag`. -/
def qualityFlag : Option ℚ → String
  | none => "NULL"
  | some v => if v = 0 then "ZERO" else if v < 0 then "INVALID" else "VALID"

/-- `PrimaryForestTransformer`'s `loss_status` derivation. -/
def lossStatus : Option ℚ → String
  | none => "NO_DATA"
  | some v => if v = 0 then "NO_LOSS" else "LOSS_RECORDED"

/-- `clean_country_names` on the wide tree frame (country cells are the sheet's
non-null country strings). -/
def cleanTreeWide (w : TreeWide) : TreeWide :=
  { w with rows := w.rows.map fun r => { r with country := stripChars (applyMappings r.country) } }

/-- `clean_country_names` on the wide primary frame. -/
def cleanPrimWide (w : PrimWide) : PrimWide :=
  { w with rows := w.rows.map fun r => { r with country := stripChars (applyMappings r.country) } }

/-- `fix_negative_values(tree_cover_df, ["tree_cover_loss_ha", "extent_2000_ha"])`
on the wide frame: `tree_cover_loss_ha` is not a wide column (the per-year
columns are `tc_loss_ha_<year>`), so only `extent_2000_ha` is nulled when
negative. -/
def fixNegTreeWide (w : TreeWide) : TreeWide :=
  { w with rows := w.rows.map fun r => { r with extent_2000_ha := fixNegCell r.extent_2000_ha } }

/-- Melt one wide tree row (`_melt_year_columns` on `tc_loss_ha_<year>$`) and add
the computed `loss_rate_pct` (`when(extent>0).then(loss/extent*100)`, null if
the extent is null/non-positive or the loss is null) and the quality flag. -/
def meltTreeRow (years : List Int) (r : TreeWideRow) : List TreeFactRow :=
  (years.zip r.losses).map fun yv =>
    { country := r.country
      threshold := r.threshold
      extent_2000_ha := r.extent_2000_ha
      year := yv.1
      tree_cover_loss_ha := yv.2
      loss_rate_pct :=
        match r.extent_2000_ha, yv.2 with
        | some e, some l => if e > 0 then some (l / e * 100) else none
        | _, _ => none
      data_quality_flag := qualityFlag yv.2 }

/-- `TreeCoverTransformer.transform` (transformers.py 85-140): melt, compute
derived columns, filter to the configured tree-cover year range (2001-2024). -/
def treeTransform (w : TreeWide) : List TreeFactRow :=
  (w.rows.flatMap (meltTreeRow w.years)).filter
    (fun r => decide (2001 ≤ r.year ∧ r.year ≤ 2024))

/-- `PrimaryForestTransformer.transform` (transformers.py 150-206): melt with
identifier `country`, fix threshold 30, derive `loss_status`, filter to the
primary-forest year range (2002-2024). -/
def primTransform (w : PrimWide) : List PrimFactRow :=
  (w.rows.flatMap fun r =>
    (w.years.zip r.losses).map fun yv =>
      { country := r.country
        year := yv.1
        threshold := 30
        primary_forest_loss_ha := yv.2
        loss_status := lossStatus yv.2 : PrimFactRow }).filter
    (fun r => decide (2002 ≤ r.year ∧ r.year ≤ 2024))

/-- The two fact tables read by `v_primary_forest_percentage`. -/
structure ForestDB where
  fact_tree_cover_loss : List TreeFactRow
  fact_primary_forest : List PrimFactRow
deriving DecidableEq, Repr

/-- The system's own export path for the two tables feeding the view
(`main.py` steps 3-5: clean, fix negatives, transform, insert unchanged). -/
def exportPath (tree : TreeWide) (primary : PrimWide) : ForestDB :=
  { fact_tree_cover_loss := treeTransform (fixNegTreeWide (cleanTreeWide tree))
    fact_primary_forest := primTransform (cleanPrimWide primary) }

/-- SQLite `ROUND(x, 2)`: round half away from zero at two decimals, in exact
arithmetic. -/
def sqliteRound2 (x : ℚ) : ℚ :=
  if 0 ≤ x then ((⌊x * 100 + 1 / 2⌋ : ℤ) : ℚ) / 100
  else -(((⌊-x * 100 + 1 / 2⌋ : ℤ) : ℚ) / 100)

/-- The view's `primary_percentage` expression:
`CASE WHEN t.tree_cover_loss_ha > 0 THEN ROUND(p.primary/t.total*100, 2) ELSE NULL END`
(NULL when the total is null or non-positive, or the primary value is null —
SQL arithmetic on NULL is NULL). -/
def viewPercentage (total primary : Option ℚ) : Option ℚ :=
  match total, primary with
  | some t, some p => if t > 0 then some (sqliteRound2 (p / t * 100)) else none
  | _, _ => none

/-- One output row of `v_primary_forest_percentage` (the `loss_type` column of the
view-manager variant is not involved in the claim and is omitted). -/
structure ViewRow where
  country : String
  year : Int
  tree_cover_loss_ha : Option ℚ
  primary_forest_loss_ha : Option ℚ
  primary_percentage : Option ℚ
deriving DecidableEq, Repr

/-- `v_primary_forest_percentage` (schema.py 222-239 / views.py 66-91):
tree-cover rows at threshold 30, LEFT JOIN primary-forest on (country, year). -/
def v_primary_forest_percentage (db : ForestDB) : List ViewRow :=
  (db.fact_tree_cover_loss.filter (fun t => t.threshold == 30)).flatMap fun t =>
    match db.fact_primary_forest.filter
        (fun p => p.country == t.country && p.year == t.year) with
    | [] =>
      [{ country := t.country, year := t.year
         tree_cover_loss_ha := t.tree_cover_loss_ha
         primary_forest_loss_ha := none
         primary_percentage := viewPercentage t.tree_cover_loss_ha none }]
    | ms =>
      ms.map fun p =>
        { country := t.country, year := t.year
          tree_cover_loss_ha := t.tree_cover_loss_ha
          primary_forest_loss_ha := p.primary_forest_loss_ha
          primary_percentage := viewPercentage t.tree_cover_loss_ha p.primary_forest_loss_ha }

/-! ## The `query_carbon_data` tool handler (mcp_stdio_server.py 1030-1090)

The handler is modelled as a pure function of its arguments and the database,
returning the branch taken together with the list of SQL statements it
executed, in order.  The prose formatting of the success response is not part
of any claim and is represented by the structured `report` constructor; the
guidance text for an out-of-range threshold is reproduced verbatim. -/

/-- A `fact_carbon` row as read by the handler's lookup and sink/source logic
(the further formatted-only columns are not modelled). -/
structure CarbonRow where
  country : String
  year : Int
  threshold : Int
  carbon_net_flux_annual_avg : ℚ
deriving DecidableEq, Repr

/-- The database as seen by the handler: the tree-cover years (read by
`get_latest_year`) and the carbon fact table. -/
structure CarbonDB where
  fact_tree_cover_loss_years : List Int
  fact_carbon : List CarbonRow
deriving DecidableEq, Repr

/-- The SQL text of `get_latest_year`'s query. -/
def maxYearSql : String :=
  "SELECT MAX(year) as max_year FROM fact_tree_cover_loss"

/-- The SQL text of the handler's carbon lookup (parameters `country, year,
threshold`). -/
def carbonSql : String :=
  "SELECT country, year, threshold, carbon_emissions_mg_co2e, carbon_emissions_annual_avg, carbon_removals_annual_avg, carbon_net_flux_annual_avg, carbon_density_mg_c_ha, carbon_flux_status FROM fact_carbon WHERE country = ? AND year = ? AND threshold = ?"

/-- `get_latest_year` (mcp_stdio_server.py 172-176): `SELECT MAX(year)` over the
tree-cover table; `MAX` over an empty table is SQL NULL (the Python `else 2024`
fallback is unreachable, since the aggregate query always returns one row). -/
def get_latest_year (db : CarbonDB) : Option Int :=
  db.fact_tree_cover_loss_years.max?

/-- The handler's arguments: `country` required, `year`/`threshold` optional. -/
structure CarbonArgs where
  country : String
  year : Option Int
  threshold : Option Int
deriving DecidableEq, Repr

/-- The branch a `query_carbon_data` invocation takes. -/
inductive CarbonReply
  | guidance (text : String)
  | noData
  | report (isSink : Bool) (row : CarbonRow)
deriving DecidableEq, Repr

/-- Result of one handler invocation: the reply plus the SQL statements executed
against the database, in execution order. -/
structure CarbonOutcome where
  reply : CarbonReply
  queriesRun : List String
deriving DecidableEq, Repr

/-- `handle_query_carbon_data`.  Note `year = args.get("year", get_latest_year())`
evaluates its default argument eagerly in Python, so the latest-year query runs
on every invocation, before the threshold check. -/
def handle_query_carbon_data (args : CarbonArgs) (db : CarbonDB) : CarbonOutcome :=
  let latest := get_latest_year db
  let year : Option Int :=
    match args.year with
    | some y => some y
    | none => latest
  let threshold : Int := args.threshold.getD 30
  if threshold ∈ ([30, 50, 75] : List Int) then
    let results := db.fact_carbon.filter fun r =>
      r.country == args.country && some r.year == year && r.threshold == threshold
    match results with
    | [] => ⟨.noData, [maxYearSql, carbonSql]⟩
    | row :: _ => ⟨.report (row.carbon_net_flux_annual_avg < 0) row, [maxYearSql, carbonSql]⟩
  else
    ⟨.guidance ("Carbon data is only available for thresholds 30%, 50%, and 75%.\n\nYou requested " ++
        toString threshold ++ "%. Please use 30, 50, or 75."),
      [maxYearSql]⟩

/-! ## Shared lemmas -/

/-- A column name containing a character that is neither alphanumeric nor an
underscore fails `build_where_clause`'s validation. -/
theorem validColumnName_false_of_badChar {col : String} {c : Char}
    (hc : c ∈ col.data) (hbad : ¬(c.isAlphanum = true ∨ c = '_')) :
    validColumnName col = false := by
  push_neg at hbad
  obtain ⟨halnum, hund⟩ := hbad
  cases hval : validColumnName col with
  | false => rfl
  | true =>
    exfalso
    have h2 : (col.data.filter (fun c => c ≠ '_')).all Char.isAlphanum = true := by
      unfold validColumnName pyIsAlnum at hval
      simp only [Bool.and_eq_true] at hval
      exact hval.2
    have hmem : c ∈ col.data.filter (fun c => c ≠ '_') :=
      List.mem_filter.mpr ⟨hc, by simp [hund]⟩
    exact halnum (List.all_eq_true.mp h2 c hmem)

/-- If some entry has an invalid column name, the WHERE-parts loop raises. -/
theorem whereParts_error_of_invalid {conds : List (String × PyValue)}
    (h : ∃ p ∈ conds, validColumnName p.1 = false) :
    ∃ m, whereParts conds = .error m := by
  induction conds with
  | nil => simp at h
  | cons hd tl ih =>
    obtain ⟨p, hp, hpvalid⟩ := h
    rcases List.mem_cons.mp hp with rfl | hmem
    · exact ⟨"Invalid column name: " ++ p.1, by simp [whereParts, hpvalid]⟩
    · by_cases hhd : validColumnName hd.1
      · obtain ⟨m, hm⟩ := ih ⟨p, hmem, hpvalid⟩
        refine ⟨m, ?_⟩
        obtain ⟨col, v⟩ := hd
        simp only [whereParts, hhd, if_true, hm]
      · exact ⟨"Invalid column name: " ++ hd.1, by
          obtain ⟨col, v⟩ := hd
          simp [whereParts, hhd]⟩

/-- With every column name valid, the WHERE-parts loop collects exactly the
per-entry clause fragments and parameters, in entry order. -/
theorem whereParts_ok_of_valid {conds : List (String × PyValue)}
    (h : ∀ p ∈ conds, validColumnName p.1 = true) :
    whereParts conds = .ok (conds.map entryClause, conds.flatMap entryParams) := by
  induction conds with
  | nil => rfl
  | cons hd tl ih =>
    obtain ⟨col, v⟩ := hd
    have hhd : validColumnName col = true := h (col, v) (List.mem_cons_self _ _)
    have htl := ih (fun p hp => h p (List.mem_cons_of_mem _ hp))
    cases v <;> simp [whereParts, hhd, htl, entryClause, entryParams]

/-- Counting question marks distributes over string append. -/
theorem countQMarks_append (a b : String) :
    countQMarks (a ++ b) = countQMarks a + countQMarks b := by
  simp [countQMarks, String.data_append]

/-- Placeholder strings consist of `n` question marks joined by commas. -/
theorem countQMarks_placeholders (n : Nat) : countQMarks (placeholders n) = n := by
  induction n with
  | zero => rfl
  | succ k ih =>
    cases k with
    | zero => rfl
    | succ j =>
      show countQMarks ("?," ++ placeholders (j + 1)) = j + 2
      rw [countQMarks_append, ih]
      have h1 : countQMarks "?," = 1 := by decide
      omega

/-- A valid column name contains no question mark. -/
theorem countQMarks_valid_col {col : String} (h : validColumnName col = true) :
    countQMarks col = 0 := by
  unfold validColumnName pyIsAlnum at h
  simp only [Bool.and_eq_true] at h
  have hall := h.2
  rw [countQMarks, List.count_eq_zero]
  intro hq
  by_cases hund : ('?' : Char) = '_'
  · exact absurd hund (by decide)
  · have hmem : ('?' : Char) ∈ col.data.filter (fun c => c ≠ '_') :=
      List.mem_filter.mpr ⟨hq, by simpa using hund⟩
    have := List.all_eq_true.mp hall _ hmem
    exact absurd this (by decide)

/-- C1: `build_where_clause` rejects (raises for) any condition entry whose
column name contains a character other than a letter, digit or underscore, so
no such name reaches SQL text; with all names valid it emits, per entry,
`column IS NULL` for a null, `column IN (...)` with one `?` per element for a
list, and `column = ?` for a scalar, joined with `" AND "` after `"WHERE "`,
parameters in entry order; the empty map yields `("", ())`; and
`{"country": "Brazil", "year": 2023}` yields
`WHERE country = ? AND year = ?` with parameters `("Brazil", 2023)`. -/
theorem C1_build_where_clause :
    (∀ conds : List (String × PyValue),
        (∃ p ∈ conds, ∃ c ∈ p.1.data, ¬(c.isAlphanum = true ∨ c = '_')) →
        ∃ m, build_where_clause conds = .error m)
    ∧ build_where_clause [] = .ok ("", [])
    ∧ (∀ conds : List (String × PyValue),
        (∀ p ∈ conds, validColumnName p.1 = true) →
        build_where_clause conds =
          .ok (if conds.isEmpty then ""
               else "WHERE " ++ String.intercalate " AND " (conds.map entryClause),
               conds.flatMap entryParams))
    ∧ (∀ col : String, validColumnName col = true →
        build_where_clause [(col, .vnone)] = .ok ("WHERE " ++ col ++ " IS NULL", [])
        ∧ (∀ p, build_where_clause [(col, .vprim p)] = .ok ("WHERE " ++ col ++ " = ?", [p]))
        ∧ (∀ elems, build_where_clause [(col, .vlist elems)] =
              .ok ("WHERE " ++ col ++ " IN (" ++ placeholders elems.length ++ ")", elems)
            ∧ countQMarks ("WHERE " ++ col ++ " IN (" ++ placeholders elems.length ++ ")")
                = elems.length))
    ∧ build_where_clause [("country", .vprim (.pstr "Brazil")), ("year", .vprim (.pint 2023))]
        = .ok ("WHERE country = ? AND year = ?", [.pstr "Brazil", .pint 2023]) := by
  refine ⟨?_, rfl, ?_, ?_, rfl⟩
  · intro conds ⟨p, hp, c, hc, hbad⟩
    have hinvalid := validColumnName_false_of_badChar hc hbad
    obtain ⟨m, hm⟩ := whereParts_error_of_invalid ⟨p, hp, hinvalid⟩
    refine ⟨m, ?_⟩
    have hne : conds.isEmpty = false := by
      cases conds
      · simp at hp
      · rfl
    simp [build_where_clause, hne, hm]
  · intro conds hvalid
    rw [build_where_clause]
    cases conds with
    | nil => rfl
    | cons hd tl =>
      simp only [List.isEmpty_cons, if_false, Bool.false_eq_true]
      rw [whereParts_ok_of_valid hvalid]
  · intro col hcol
    have hsingle : ∀ v : PyValue, whereParts [(col, v)] = .ok ([entryClause (col, v)], entryParams (col, v)) := by
      intro v
      have hv : ∀ p ∈ [(col, v)], validColumnName p.1 = true := by
        intro p hp
        rcases List.mem_singleton.mp hp with rfl
        exact hcol
      simpa using whereParts_ok_of_valid hv
    have hone : ∀ x : String, String.intercalate " AND " [x] = x := fun _ => rfl
    refine ⟨?_, ?_, ?_⟩
    · simp only [build_where_clause, List.isEmpty_cons, Bool.false_eq_true, if_false,
        hsingle PyValue.vnone, hone, entryClause, entryParams, List.flatMap_cons,
        List.flatMap_nil, List.append_nil]
      rw [← String.append_assoc]
    · intro p
      simp only [build_where_clause, List.isEmpty_cons, Bool.false_eq_true, if_false,
        hsingle (PyValue.vprim p), hone, entryClause, entryParams, List.flatMap_cons,
        List.flatMap_nil, List.append_nil]
      rw [← String.append_assoc]
    · intro elems
      constructor
      · simp only [build_where_clause, List.isEmpty_cons, Bool.false_eq_true, if_false,
          hsingle (PyValue.vlist elems), hone, entryClause, entryParams, List.flatMap_cons,
          List.flatMap_nil, List.append_nil]
        rw [← String.append_assoc, ← String.append_assoc, ← String.append_assoc]
      · have h1 : countQMarks "WHERE " = 0 := by decide
        have h2 : countQMarks " IN (" = 0 := by decide
        have h3 : countQMarks ")" = 0 := by decide
        rw [countQMarks_append, countQMarks_append, countQMarks_append, countQMarks_append,
          h1, countQMarks_valid_col hcol, h2, countQMarks_placeholders, h3]
        omega

/-- Witness for C1: the rejection branch at a column name containing a space,
and the accepted branches at concrete entries. -/
theorem C1_build_where_clause_witness :
    (∃ m, build_where_clause [("a b", PyValue.vprim (Prim.pint 1))] = .error m)
    ∧ build_where_clause [("country", PyValue.vnone), ("year", PyValue.vprim (Prim.pint 2023))]
        = .ok (if ([("country", PyValue.vnone),
                    ("year", PyValue.vprim (Prim.pint 2023))] : List (String × PyValue)).isEmpty
               then ""
               else "WHERE " ++ String.intercalate " AND "
                 (([("country", PyValue.vnone), ("year", PyValue.vprim (Prim.pint 2023))] :
                    List (String × PyValue)).map entryClause),
               ([("country", PyValue.vnone), ("year", PyValue.vprim (Prim.pint 2023))] :
                    List (String × PyValue)).flatMap entryParams)
    ∧ (build_where_clause [("year", PyValue.vlist [Prim.pint 2022, Prim.pint 2023])]
          = .ok ("WHERE " ++ "year" ++ " IN (" ++ placeholders ([Prim.pint 2022, Prim.pint 2023] : List Prim).length ++ ")",
                 [Prim.pint 2022, Prim.pint 2023])
        ∧ countQMarks ("WHERE " ++ "year" ++ " IN (" ++ placeholders ([Prim.pint 2022, Prim.pint 2023] : List Prim).length ++ ")")
            = ([Prim.pint 2022, Prim.pint 2023] : List Prim).length) :=
  ⟨C1_build_where_clause.1 _ ⟨("a b", PyValue.vprim (Prim.pint 1)), by decide, ' ', by decide, by decide⟩,
   C1_build_where_clause.2.2.1 _ (by decide),
   (C1_build_where_clause.2.2.2.1 "year" (by decide)).2.2 [Prim.pint 2022, Prim.pint 2023]⟩

/-- Running a concatenated operation list runs the second part from the state the
first part reaches, and propagates the first failure. -/
theorem applyOps_append {DB : Type} (exec : DB → SqlOp → Except String DB)
    (db : DB) (l1 l2 : List SqlOp) :
    applyOps exec db (l1 ++ l2) =
      match applyOps exec db l1 with
      | .ok db1 => applyOps exec db1 l2
      | .error e => .error e := by
  induction l1 generalizing db with
  | nil => rfl
  | cons op rest ih =>
    rw [List.cons_append, applyOps, applyOps]
    cases hop : exec db op with
    | ok db2 => exact ih db2
    | error e => rfl

/-- C2: `execute_transaction` is all-or-nothing: either every operation succeeds
and the combined effect is committed (with `True` returned), or the run fails,
the durable state equals the pre-transaction state, and the error is re-raised;
in particular, when a failing operation follows successful ones, none of the
earlier operations' effects survive. -/
theorem C2_execute_transaction :
    ∀ (DB : Type) (exec : DB → SqlOp → Except String DB) (db : DB) (ops : List SqlOp),
      ((∃ db2, applyOps exec db ops = .ok db2
          ∧ execute_transaction exec db ops = ⟨db2, .ok true⟩)
        ∨ (∃ e, applyOps exec db ops = .error e
          ∧ execute_transaction exec db ops = ⟨db, .error e⟩))
      ∧ (∀ (pre : List SqlOp) (op : SqlOp) (post : List SqlOp) (db1 : DB) (e : String),
          applyOps exec db pre = .ok db1 →
          exec db1 op = .error e →
          execute_transaction exec db (pre ++ op :: post) = ⟨db, .error e⟩) := by
  intro DB exec db ops
  constructor
  · cases h : applyOps exec db ops with
    | ok db2 => exact Or.inl ⟨db2, rfl, by simp [execute_transaction, h]⟩
    | error e => exact Or.inr ⟨e, rfl, by simp [execute_transaction, h]⟩
  · intro pre op post db1 e hpre hop
    have hfail : applyOps exec db (pre ++ op :: post) = .error e := by
      rw [applyOps_append, hpre]
      show applyOps exec db1 (op :: post) = _
      rw [applyOps, hop]
    simp [execute_transaction, hfail]

/-- Witness for C2: with an increment-counter semantics where the operation
labelled `bad` fails, a transaction of one successful insert followed by the
failing operation leaves the database at its pre-transaction state `0`
(the insert's effect `1` is not visible), re-raising the error. -/
theorem C2_execute_transaction_witness :
    execute_transaction
        (fun (d : Int) (op : SqlOp) => if op.sql = "bad" then .error "boom" else .ok (d + 1))
        0 ([⟨"ins", []⟩] ++ ⟨"bad", []⟩ :: [])
      = ⟨0, .error "boom"⟩
    ∧ applyOps
        (fun (d : Int) (op : SqlOp) => if op.sql = "bad" then .error "boom" else .ok (d + 1))
        0 [⟨"ins", []⟩] = .ok 1 :=
  ⟨(C2_execute_transaction Int
      (fun d op => if op.sql = "bad" then .error "boom" else .ok (d + 1)) 0
      ([⟨"ins", []⟩] ++ ⟨"bad", []⟩ :: [])).2
      [⟨"ins", []⟩] ⟨"bad", []⟩ [] 1 "boom" rfl rfl,
   rfl⟩

/-- Looking a name up in an update of a single named column. -/
theorem lookupCol_map_update (df : DataFrame) (col : String) (g : Column → Column)
    (name : String) :
    lookupCol (df.map (fun nc => if nc.1 = col then (nc.1, g nc.2) else nc)) name =
      if name = col then (lookupCol df name).map g else lookupCol df name := by
  rw [lookupCol, List.find?_map]
  have hp : ((fun nc : String × Column => nc.1 == name) ∘
      (fun nc : String × Column => if nc.1 = col then (nc.1, g nc.2) else nc)) =
      (fun nc : String × Column => nc.1 == name) := by
    funext nc
    by_cases h : nc.1 = col <;> simp [h]
  rw [hp]
  cases hfind : df.find? (fun nc => nc.1 == name) with
  | none =>
    by_cases h : name = col
    · subst h
      simp [lookupCol, hfind]
    · simp [lookupCol, hfind, h]
  | some p =>
    have hpeq : p.1 = name := by simpa using List.find?_some hfind
    by_cases h : name = col
    · subst h
      simp [lookupCol, hfind, hpeq]
    · have hne : ¬ p.1 = col := by rw [hpeq]; exact h
      simp [lookupCol, hfind, hne, h]

/-- A successful column lookup implies the name is among the frame's columns. -/
theorem mem_columnsOf_of_lookup {df : DataFrame} {n : String} {c : Column}
    (h : lookupCol df n = some c) : n ∈ columnsOf df := by
  rw [lookupCol] at h
  cases hfind : df.find? (fun nc => nc.1 == n) with
  | none => rw [hfind] at h; simp at h
  | some p =>
    have hpm := List.mem_of_find?_eq_some hfind
    have hpeq : p.1 = n := by simpa using List.find?_some hfind
    exact hpeq ▸ List.mem_map_of_mem Prod.fst hpm

/-- A name update of a dataframe leaves the column-name list unchanged. -/
theorem columnsOf_map_update (df : DataFrame) (col : String) (g : Column → Column) :
    columnsOf (df.map (fun nc => if nc.1 = col then (nc.1, g nc.2) else nc)) =
      columnsOf df := by
  induction df with
  | nil => rfl
  | cons hd tl ih =>
    by_cases h : hd.1 = col <;> simp [columnsOf, h] <;>
      simpa [columnsOf] using ih

/-- C10 (implicit): the cleaner operations are total on frames lacking their
target column — `clean_country_names` without a `country` column,
`validate_thresholds` without a `threshold` column, and `validate_years`
without a `year` column each return the frame unchanged, and
`fix_negative_values` silently skips absent named columns. -/
theorem C10_missing_columns :
    ∀ df : DataFrame,
      ("country" ∉ columnsOf df → clean_country_names df = df)
      ∧ ("threshold" ∉ columnsOf df → validate_thresholds df = df)
      ∧ ("year" ∉ columnsOf df → validate_years df 2001 2024 = df)
      ∧ (∀ cols : List String, (∀ c ∈ cols, c ∉ columnsOf df) →
          fix_negative_values df cols = df) := by
  intro df
  refine ⟨fun h => by simp [clean_country_names, h],
    fun h => by simp [validate_thresholds, h],
    fun h => by simp [validate_years, h], ?_⟩
  intro cols h
  induction cols with
  | nil => rfl
  | cons c rest ih =>
    have hc : c ∉ columnsOf df := h c (List.mem_cons_self _ _)
    have hrest := ih (fun x hx => h x (List.mem_cons_of_mem _ hx))
    show List.foldl _ df (c :: rest) = df
    rw [List.foldl_cons]
    simp only [hc, if_false]
    exact hrest

/-- Witness for C10, at a one-column frame lacking all target columns. -/
theorem C10_missing_columns_witness :
    clean_country_names [("x", Column.numCol [some 1])] = [("x", Column.numCol [some 1])]
    ∧ validate_thresholds [("x", Column.numCol [some 1])] = [("x", Column.numCol [some 1])]
    ∧ validate_years [("x", Column.numCol [some 1])] 2001 2024 = [("x", Column.numCol [some 1])]
    ∧ fix_negative_values [("x", Column.numCol [some 1])] ["y"] = [("x", Column.numCol [some 1])] :=
  ⟨(C10_missing_columns [("x", Column.numCol [some 1])]).1 (by decide),
   (C10_missing_columns [("x", Column.numCol [some 1])]).2.1 (by decide),
   (C10_missing_columns [("x", Column.numCol [some 1])]).2.2.1 (by decide),
   (C10_missing_columns [("x", Column.numCol [some 1])]).2.2.2 ["y"] (by decide)⟩

/-- C4: `fix_negative_values` leaves any named column whose name contains
`net_flux` or `removals` completely unchanged (a negative value such as `-50`
in `carbon_net_flux_annual_avg` is preserved); in every other named numeric
column each negative non-null value is replaced with null (not zero) while
non-negative values and existing nulls are unchanged, and columns not named
are untouched. -/
theorem C4_fix_negative_values :
    (∀ (df : DataFrame) (col : String),
        (strContainsSub col "net_flux" = true ∨ strContainsSub col "removals" = true) →
        fix_negative_values df [col] = df)
    ∧ (∀ (df : DataFrame) (col : String),
        strContainsSub col "net_flux" = false → strContainsSub col "removals" = false →
        (∀ cells, lookupCol df col = some (.numCol cells) →
          lookupCol (fix_negative_values df [col]) col =
            some (.numCol (cells.map fixNegCell)))
        ∧ (∀ other, other ≠ col →
            lookupCol (fix_negative_values df [col]) other = lookupCol df other))
    ∧ fix_negative_values [("carbon_net_flux_annual_avg", Column.numCol [some (-50)])]
        ["carbon_net_flux_annual_avg"]
        = [("carbon_net_flux_annual_avg", Column.numCol [some (-50)])]
    ∧ fix_negative_values [("x_ha", Column.numCol [some (-3), some 4, none])] ["x_ha"]
        = [("x_ha", Column.numCol [none, some 4, none])] := by
  refine ⟨?_, ?_, by decide, by decide⟩
  · intro df col hskip
    show List.foldl _ df [col] = df
    rw [List.foldl_cons, List.foldl_nil]
    by_cases hmem : col ∈ columnsOf df
    · have hsub : (strContainsSub col "net_flux" || strContainsSub col "removals") = true := by
        rcases hskip with h | h <;> simp [h]
      simp [hmem, hsub]
    · simp [hmem]
  · intro df col h1 h2
    have hsub : (strContainsSub col "net_flux" || strContainsSub col "removals") = false := by
      simp [h1, h2]
    constructor
    · intro cells hcells
      have hmem : col ∈ columnsOf df := by
        have : (df.find? (fun nc => nc.1 == col)).isSome := by
          rw [lookupCol] at hcells
          cases hfind : df.find? (fun nc => nc.1 == col) with
          | none => rw [hfind] at hcells; simp at hcells
          | some _ => rfl
        obtain ⟨p, hp⟩ := Option.isSome_iff_exists.mp this
        have hpm := List.mem_of_find?_eq_some hp
        have hpeq : p.1 = col := by simpa using List.find?_some hp
        exact hpeq ▸ List.mem_map_of_mem Prod.fst hpm
      show lookupCol (List.foldl _ df [col]) col = _
      rw [List.foldl_cons, List.foldl_nil]
      simp only [hmem, if_true, hsub, Bool.false_eq_true, if_false]
      rw [lookupCol_map_update, if_pos rfl, hcells]
      rfl
    · intro other hother
      show lookupCol (List.foldl _ df [col]) other = _
      rw [List.foldl_cons, List.foldl_nil]
      by_cases hmem : col ∈ columnsOf df
      · simp only [hmem, if_true, hsub, Bool.false_eq_true, if_false]
        rw [lookupCol_map_update, if_neg hother]
      · simp [hmem]

/-- Witness for C4: the skip branch at the spec's `carbon_net_flux_annual_avg`
example and the rewrite branch at a plain loss column. -/
theorem C4_fix_negative_values_witness :
    fix_negative_values [("carbon_net_flux_annual_avg", Column.numCol [some (-50)])]
        ["carbon_net_flux_annual_avg"]
      = [("carbon_net_flux_annual_avg", Column.numCol [some (-50)])]
    ∧ lookupCol (fix_negative_values [("x_ha", Column.numCol [some (-3), some 4, none])] ["x_ha"]) "x_ha"
        = some (Column.numCol ([some (-3), some 4, none].map fixNegCell)) :=
  ⟨C4_fix_negative_values.1 [("carbon_net_flux_annual_avg", Column.numCol [some (-50)])]
      "carbon_net_flux_annual_avg" (Or.inl (by decide)),
   ((C4_fix_negative_values.2.1 [("x_ha", Column.numCol [some (-3), some 4, none])] "x_ha"
      (by decide) (by decide)).1 [some (-3), some 4, none] (by decide))⟩

/-- A string matching no alias key passes through the alias fold unchanged. -/
theorem foldl_alias_eq_self {l : List (String × String)} {s : String}
    (h : s ∉ l.map Prod.fst) :
    l.foldl (fun acc kv => if acc = kv.1 then kv.2 else acc) s = s := by
  induction l with
  | nil => rfl
  | cons hd tl ih =>
    have hne : s ≠ hd.1 := by
      intro he
      exact h (by simp [List.map_cons]; exact Or.inl he)
    rw [List.foldl_cons, if_neg hne]
    exact ih (fun hm => h (List.mem_cons_of_mem _ hm))

/-- A string that is not an alias key is fixed by `applyMappings`. -/
theorem applyMappings_eq_self {s : String} (h : s ∉ countryMappings.map Prod.fst) :
    applyMappings s = s :=
  foldl_alias_eq_self h

/-- On an already-trimmed string, alias-then-trim is idempotent: every alias
target is itself trimmed and is not an alias key. -/
theorem cleanStr_idem {s : String} (h : stripChars s = s) :
    stripChars (applyMappings (stripChars (applyMappings s)))
      = stripChars (applyMappings s) := by
  by_cases hk : s ∈ countryMappings.map Prod.fst
  · simp only [countryMappings, List.map_cons, List.map_nil] at hk
    fin_cases hk <;> decide
  · rw [applyMappings_eq_self hk, h, applyMappings_eq_self hk]
    exact h

/-- Column-level decidable form of "every country cell is already trimmed". -/
def colTrimmed : Column → Bool
  | .strCol cells => cells.all (fun c => (c.map stripChars) == c)
  | .numCol _ => true

/-- Counterexample to C5 as stated: the alias table is applied before the
whitespace trim, so `" USA "` becomes `"USA"` after one application and
`"United States"` only after a second — `clean_country_names` is not
idempotent on every dataframe with a `country` column. -/
theorem C5_counterexample :
    clean_country_names (clean_country_names [("country", Column.strCol [some " USA "])])
      ≠ clean_country_names [("country", Column.strCol [some " USA "])] := by
  decide

/-- C5 as amended: `clean_country_names` is idempotent on dataframes whose
country values carry no surrounding whitespace (so a second application of the
composite alias-then-trim map changes nothing), and `"USA"`, `"US"` and
`"United States of America"` all map to `"United States"`; on values with
surrounding whitespace, such as `" USA "`, a single application need not be a
fixed point because aliasing precedes trimming. -/
theorem C5_clean_country_names_amended :
    (∀ df : DataFrame,
        (∀ p ∈ df, p.1 = "country" → colTrimmed p.2 = true) →
        clean_country_names (clean_country_names df) = clean_country_names df)
    ∧ cleanCountryCell (some "USA") = some "United States"
    ∧ cleanCountryCell (some "US") = some "United States"
    ∧ cleanCountryCell (some "United States of America") = some "United States" := by
  refine ⟨?_, by decide, by decide, by decide⟩
  intro df htrim
  by_cases hc : "country" ∈ columnsOf df
  · have hinner : clean_country_names df =
        df.map (fun nc => if nc.1 = "country" then (nc.1, mapCountryColumn nc.2) else nc) := by
      rw [clean_country_names, if_pos hc]
    have hcols : columnsOf (df.map
        (fun nc => if nc.1 = "country" then (nc.1, mapCountryColumn nc.2) else nc)) =
        columnsOf df :=
      columnsOf_map_update df "country" mapCountryColumn
    rw [hinner, clean_country_names, if_pos (hcols ▸ hc)]
    have hfix : ∀ nc ∈ df.map
        (fun nc => if nc.1 = "country" then (nc.1, mapCountryColumn nc.2) else nc),
        (if nc.1 = "country" then (nc.1, mapCountryColumn nc.2) else nc) = nc := by
      intro nc hnc
      obtain ⟨p, hp, rfl⟩ := List.mem_map.mp hnc
      by_cases hp1 : p.1 = "country"
      · simp only [hp1, if_pos rfl, if_true]
        refine congrArg (Prod.mk "country") ?_
        have hcol := htrim p hp hp1
        cases hcol2 : p.2 with
        | numCol cells => rfl
        | strCol cells =>
          rw [hcol2] at hcol
          refine congrArg Column.strCol ?_
          rw [List.map_map]
          apply List.map_congr_left
          intro cell hcell
          have hc := List.all_eq_true.mp hcol cell hcell
          cases cell with
          | none => rfl
          | some s =>
            have hs : stripChars s = s := by
              have h2 : (some s).map stripChars = some s := eq_of_beq hc
              simpa using h2
            show cleanCountryCell (cleanCountryCell (some s)) = cleanCountryCell (some s)
            simp only [cleanCountryCell]
            exact congrArg some (cleanStr_idem hs)
      · simp only [if_neg hp1]
    calc (df.map (fun nc => if nc.1 = "country" then (nc.1, mapCountryColumn nc.2) else nc)).map
          (fun nc => if nc.1 = "country" then (nc.1, mapCountryColumn nc.2) else nc)
        = (df.map (fun nc => if nc.1 = "country" then (nc.1, mapCountryColumn nc.2) else nc)).map
            id := List.map_congr_left hfix
      _ = _ := List.map_id _
  · have h1 : clean_country_names df = df := by rw [clean_country_names, if_neg hc]
    rw [h1, h1]

/-- Witness for C5's amended idempotence at a trimmed two-cell frame. -/
theorem C5_clean_country_names_witness :
    clean_country_names (clean_country_names
        [("country", Column.strCol [some "USA", none]), ("x", Column.numCol [some 1])])
      = clean_country_names
        [("country", Column.strCol [some "USA", none]), ("x", Column.numCol [some 1])] :=
  C5_clean_country_names_amended.1
    [("country", Column.strCol [some "USA", none]), ("x", Column.numCol [some 1])]
    (by decide)

/-- The Python `min` scan returns an element of the scanned list. -/
theorem pyMinBy_mem (f : Int → ℚ) (acc : Int) (l : List Int) :
    pyMinBy f acc l ∈ acc :: l := by
  induction l generalizing acc with
  | nil => simp [pyMinBy]
  | cons v rest ih =>
    rw [pyMinBy]
    by_cases h : f v < f acc
    · rw [if_pos h]
      exact List.mem_cons_of_mem _ (ih v)
    · rw [if_neg h]
      rcases List.mem_cons.mp (ih acc) with h1 | h1
      · rw [h1]
        exact List.mem_cons_self _ _
      · exact List.mem_cons_of_mem _ (List.mem_cons_of_mem _ h1)

/-- The Python `min` scan minimizes the key over the scanned list. -/
theorem pyMinBy_le (f : Int → ℚ) (acc : Int) (l : List Int) :
    ∀ w ∈ acc :: l, f (pyMinBy f acc l) ≤ f w := by
  induction l generalizing acc with
  | nil =>
    intro w hw
    rcases List.mem_cons.mp hw with heq | h
    · rw [heq]
      simp [pyMinBy]
    · simp at h
  | cons v rest ih =>
    intro w hw
    rw [pyMinBy]
    by_cases h : f v < f acc
    · rw [if_pos h]
      rcases List.mem_cons.mp hw with heq | hw2
      · rw [heq]
        exact le_trans (ih v v (List.mem_cons_self _ _)) (le_of_lt h)
      · exact ih v w hw2
    · rw [if_neg h]
      rcases List.mem_cons.mp hw with heq | hw2
      · rw [heq]
        exact ih acc acc (List.mem_cons_self _ _)
      · rcases List.mem_cons.mp hw2 with heq | hw3
        · rw [heq]
          exact le_trans (ih acc acc (List.mem_cons_self _ _)) (not_lt.mp h)
        · exact ih acc w (List.mem_cons_of_mem _ hw3)

/-- The scan accumulator is replaced only on a strict improvement of the key. -/
theorem pyMinBy_eq_or_lt (f : Int → ℚ) :
    ∀ (acc : Int) (l : List Int),
      pyMinBy f acc l = acc ∨ f (pyMinBy f acc l) < f acc
  | _, [] => Or.inl rfl
  | acc, v :: rest => by
    rw [pyMinBy]
    by_cases h : f v < f acc
    · rw [if_pos h]
      rcases pyMinBy_eq_or_lt f v rest with heq | hlt
      · rw [heq]
        exact Or.inr h
      · exact Or.inr (lt_trans hlt h)
    · rw [if_neg h]
      exact pyMinBy_eq_or_lt f acc rest

/-- On a `≤`-sorted candidate list, the first-wins `min` scan picks, among the
key minimizers, the earliest (hence smallest) candidate. -/
theorem pyMinBy_first (f : Int → ℚ) :
    ∀ (acc : Int) (l : List Int), List.Pairwise (· ≤ ·) (acc :: l) →
      ∀ w ∈ acc :: l, f w = f (pyMinBy f acc l) → pyMinBy f acc l ≤ w := by
  intro acc l
  induction l generalizing acc with
  | nil =>
    intro _ w hw hfw
    rcases List.mem_cons.mp hw with heq | h
    · rw [heq]
      simp [pyMinBy]
    · simp at h
  | cons v rest ih =>
    intro hpw w hw hfw
    obtain ⟨hrel, hrest⟩ := List.pairwise_cons.mp hpw
    rw [pyMinBy] at hfw ⊢
    by_cases h : f v < f acc
    · rw [if_pos h] at hfw ⊢
      rcases List.mem_cons.mp hw with heq | hw2
      · exfalso
        have hle := pyMinBy_le f v rest v (List.mem_cons_self _ _)
        rw [← hfw, heq] at hle
        exact absurd h (not_lt.mpr hle)
      · exact ih v hrest w hw2 hfw
    · rw [if_neg h] at hfw ⊢
      have hpacc : List.Pairwise (· ≤ ·) (acc :: rest) :=
        List.pairwise_cons.mpr
          ⟨fun b hb => hrel b (List.mem_cons_of_mem _ hb),
           (List.pairwise_cons.mp hrest).2⟩
      rcases List.mem_cons.mp hw with heq | hw2
      · rcases pyMinBy_eq_or_lt f acc rest with heq2 | hlt
        · rw [heq2, heq]
        · exfalso
          rw [← hfw, heq] at hlt
          exact lt_irrefl _ hlt
      · rcases List.mem_cons.mp hw2 with heq | hw3
        · rcases pyMinBy_eq_or_lt f acc rest with heq2 | hlt
          · rw [heq2, heq]
            exact hrel v (List.mem_cons_self _ _)
          · exfalso
            have hav : f acc ≤ f v := not_lt.mp h
            rw [heq] at hfw
            rw [← hfw] at hlt
            exact lt_irrefl _ (lt_of_lt_of_le hlt hav)
        · exact ih acc hpacc w (List.mem_cons_of_mem _ hw3) hfw

/-- `nearestThreshold` returns a canonical threshold minimizing the absolute
distance, breaking ties by the first (smallest) candidate in declaration
order. -/
theorem nearestThreshold_spec (x : ℚ) :
    nearestThreshold x ∈ validThresholds
    ∧ (∀ w ∈ validThresholds, |(nearestThreshold x : ℚ) - x| ≤ |(w : ℚ) - x|)
    ∧ (∀ w ∈ validThresholds, |(w : ℚ) - x| = |(nearestThreshold x : ℚ) - x| →
        nearestThreshold x ≤ w) := by
  have hdef : nearestThreshold x =
      pyMinBy (fun w => |(w : ℚ) - x|) 0 [10, 15, 20, 25, 30, 50, 75] := rfl
  have hlist : validThresholds = 0 :: [10, 15, 20, 25, 30, 50, 75] := rfl
  rw [hdef, hlist]
  exact ⟨pyMinBy_mem _ _ _, pyMinBy_le _ _ _,
    fun w hw hfw => pyMinBy_first _ 0 _ (by decide) w hw hfw⟩

/-- Counterexample to C6 as stated: a null threshold is left null by the source
(nulls are skipped by `map_elements` and excluded by the invalid-row mask), not
remapped to the first canonical candidate `0` as the absent-value-sentinel
reading claims. -/
theorem C6_counterexample :
    validate_thresholds [("threshold", Column.numCol [none])]
        = [("threshold", Column.numCol [none])]
    ∧ validate_thresholds [("threshold", Column.numCol [none])]
        ≠ [("threshold", Column.numCol [some 0])] := by
  exact ⟨by decide, by decide⟩

/-- C6 as amended: `validate_thresholds` maps the threshold column cellwise;
values in the canonical set `{0,10,15,20,25,30,50,75}` are unchanged, every
other non-null value is remapped to the canonical value nearest to it with
ties resolved to the first (lowest) candidate in declaration order, and null
thresholds are left null (they are never fed to the nearest-candidate lambda);
other columns are untouched. -/
theorem C6_validate_thresholds_amended :
    (∀ (df : DataFrame) (cells : List (Option ℚ)),
        lookupCol df "threshold" = some (.numCol cells) →
        lookupCol (validate_thresholds df) "threshold"
            = some (.numCol (cells.map thresholdCell))
        ∧ ∀ other, other ≠ "threshold" →
            lookupCol (validate_thresholds df) other = lookupCol df other)
    ∧ (∀ x : ℚ, (∃ v ∈ validThresholds, (v : ℚ) = x) → thresholdCell (some x) = some x)
    ∧ (∀ x : ℚ, (∀ v ∈ validThresholds, (v : ℚ) ≠ x) →
        thresholdCell (some x) = some ((nearestThreshold x : Int) : ℚ)
        ∧ nearestThreshold x ∈ validThresholds
        ∧ (∀ w ∈ validThresholds, |(nearestThreshold x : ℚ) - x| ≤ |(w : ℚ) - x|)
        ∧ (∀ w ∈ validThresholds, |(w : ℚ) - x| = |(nearestThreshold x : ℚ) - x| →
            nearestThreshold x ≤ w))
    ∧ thresholdCell none = none := by
  refine ⟨?_, ?_, ?_, rfl⟩
  · intro df cells hcells
    have hmem : "threshold" ∈ columnsOf df := mem_columnsOf_of_lookup hcells
    constructor
    · rw [validate_thresholds, if_pos hmem, lookupCol_map_update, if_pos rfl, hcells]
      rfl
    · intro other hother
      rw [validate_thresholds, if_pos hmem, lookupCol_map_update, if_neg hother]
  · intro x ⟨v, hv, hvx⟩
    have hcond : validThresholds.any (fun v => decide ((v : ℚ) = x)) = true :=
      List.any_eq_true.mpr ⟨v, hv, decide_eq_true hvx⟩
    simp only [thresholdCell, hcond, if_true]
  · intro x hx
    have hcond : validThresholds.any (fun v => decide ((v : ℚ) = x)) = false := by
      rw [← Bool.not_eq_true, List.any_eq_true]
      rintro ⟨v, hv, hvx⟩
      exact hx v hv (of_decide_eq_true hvx)
    obtain ⟨h1, h2, h3⟩ := nearestThreshold_spec x
    exact ⟨by simp only [thresholdCell, hcond, Bool.false_eq_true, if_false], h1, h2, h3⟩

/-- Witness for C6's amended statement: the column rewrite at a frame holding
`32`, the keep branch at `30`, and the snap branch at `32` (nearest canonical
value `30`). -/
theorem C6_validate_thresholds_witness :
    (lookupCol (validate_thresholds [("threshold", Column.numCol [some 32, none])]) "threshold"
        = some (Column.numCol ([some 32, none].map thresholdCell)))
    ∧ thresholdCell (some 30) = some 30
    ∧ thresholdCell (some 32) = some ((nearestThreshold 32 : Int) : ℚ)
    ∧ nearestThreshold 32 ∈ validThresholds :=
  ⟨(C6_validate_thresholds_amended.1 [("threshold", Column.numCol [some 32, none])]
      [some 32, none] (by decide)).1,
   C6_validate_thresholds_amended.2.1 30 ⟨30, by decide, by norm_num⟩,
   (C6_validate_thresholds_amended.2.2.1 32 (by decide)).1,
   (C6_validate_thresholds_amended.2.2.1 32 (by decide)).2.1⟩

/-- The violation predicate holds exactly when both values are non-null and the
primary loss strictly exceeds the total loss. -/
theorem relViolation_iff (tp : TreeLongRow × PrimaryLongRow) :
    relViolation tp = true ↔
      ∃ t p : ℚ, tp.1.tree_cover_loss_ha = some t
        ∧ tp.2.primary_forest_loss_ha = some p ∧ t < p := by
  cases h1 : tp.1.tree_cover_loss_ha with
  | none => simp [relViolation, h1]
  | some t =>
    cases h2 : tp.2.primary_forest_loss_ha with
    | none => simp [relViolation, h1, h2]
    | some p => simp [relViolation, h1, h2, gt_iff_lt]

/-- Counterexample to C3 as stated: for the joined pair with
`tree_cover_loss_ha = 100` and `primary_forest_loss_ha = 150` the excess is
`50 ≤ 100` ha, yet `validate_relationships` returns an error-severity result —
the source flags any strict excess, with no 100 ha tolerance band. -/
theorem C3_counterexample :
    (validate_relationships [⟨"Brazil", 2022, 30, some 100⟩]
        [⟨"Brazil", 2022, some 150⟩]).severity = "error"
    ∧ ((150 : ℚ) - 100 ≤ 100) := by
  exact ⟨by decide, by norm_num⟩

/-- C3 as amended: `validate_relationships` (tree-cover restricted to threshold
30, inner-joined with primary-forest on country and year) returns an
error-severity result exactly when some joined pair has non-null primary loss
strictly greater than non-null total loss — any strict excess is flagged, with
no tolerance — and otherwise returns an info-severity pass; the synthetic pair
with total 100 and primary 200 is flagged with a message containing
"exceeds total forest loss". -/
theorem C3_validate_relationships_amended :
    (∀ (tree : List TreeLongRow) (primary : List PrimaryLongRow),
        ((validate_relationships tree primary).severity = "error" ↔
          ∃ tp ∈ joinTreePrimary tree primary, ∃ t p : ℚ,
            tp.1.tree_cover_loss_ha = some t
            ∧ tp.2.primary_forest_loss_ha = some p ∧ t < p)
        ∧ ((validate_relationships tree primary).passed = true ↔
          ∀ tp ∈ joinTreePrimary tree primary, relViolation tp = false))
    ∧ (validate_relationships [⟨"X", 2022, 30, some 100⟩]
        [⟨"X", 2022, some 200⟩]).severity = "error"
    ∧ strContainsSub
        (validate_relationships [⟨"X", 2022, 30, some 100⟩]
          [⟨"X", 2022, some 200⟩]).message
        "exceeds total forest loss" = true := by
  refine ⟨?_, by decide, by decide⟩
  intro tree primary
  by_cases hv : 0 < ((joinTreePrimary tree primary).filter relViolation).length
  · have herr : validate_relationships tree primary =
        { passed := false
          message := "Found " ++
            toString ((joinTreePrimary tree primary).filter relViolation).length ++
            " cases where primary forest loss exceeds total forest loss"
          severity := "error" } := by
      rw [validate_relationships, if_pos hv]
    obtain ⟨tp, htp⟩ := List.length_pos_iff_exists_mem.mp hv
    have hmem := List.mem_filter.mp htp
    constructor
    · rw [herr]
      exact ⟨fun _ => ⟨tp, hmem.1, (relViolation_iff tp).mp hmem.2⟩, fun _ => rfl⟩
    · rw [herr]
      constructor
      · intro h
        simp at h
      · intro hall
        exfalso
        have hfalse := hall tp hmem.1
        rw [hmem.2] at hfalse
        exact absurd hfalse (by decide)
  · have hpass : validate_relationships tree primary =
        { passed := true
          message := "Primary forest loss correctly bounded by total forest loss"
          severity := "info" } := by
      rw [validate_relationships, if_neg hv]
    have hnil : (joinTreePrimary tree primary).filter relViolation = [] := by
      cases hl : (joinTreePrimary tree primary).filter relViolation with
      | nil => rfl
      | cons a l => exact absurd (by rw [hl]; simp) hv
    have hnoviol : ∀ tp ∈ joinTreePrimary tree primary, relViolation tp = false := by
      intro tp htp
      cases hrv : relViolation tp with
      | false => rfl
      | true =>
        exfalso
        have hin : tp ∈ (joinTreePrimary tree primary).filter relViolation :=
          List.mem_filter.mpr ⟨htp, hrv⟩
        rw [hnil] at hin
        simp at hin
    constructor
    · rw [hpass]
      constructor
      · intro h
        simp at h
      · rintro ⟨tp, htpJ, hex⟩
        exfalso
        have hviol := (relViolation_iff tp).mpr hex
        rw [hnoviol tp htpJ] at hviol
        exact absurd hviol (by decide)
    · rw [hpass]
      exact ⟨fun _ => hnoviol, fun _ => rfl⟩

/-- Non-null cells in a column. -/
def nonNullCount : Column → Nat
  | .strCol cells => cells.countP Option.isSome
  | .numCol cells => cells.countP Option.isSome

/-- Non-null cells over all columns of a frame. -/
def nonNullCells (df : DataFrame) : Nat :=
  (df.map (fun nc => nonNullCount nc.2)).sum

/-- Nulls and non-nulls partition a cell list. -/
theorem countP_isNone_add_isSome {α : Type} (l : List (Option α)) :
    l.countP Option.isNone + l.countP Option.isSome = l.length := by
  induction l with
  | nil => rfl
  | cons c rest ih =>
    cases c <;> simp [List.countP_cons, Option.isNone, Option.isSome] <;> omega

/-- Nulls and non-nulls partition a column. -/
theorem nullCount_add_nonNullCount (c : Column) :
    nullCount c + nonNullCount c = colHeight c := by
  cases c with
  | strCol cells => exact countP_isNone_add_isSome cells
  | numCol cells => exact countP_isNone_add_isSome cells

/-- Over columns of a common height `H`, total nulls and total non-nulls
partition the `columns × H` cell grid. -/
theorem sum_null_add_nonNull (H : Nat) :
    ∀ df : DataFrame, (∀ nc ∈ df, colHeight nc.2 = H) →
      (df.map (fun nc => nullCount nc.2)).sum + nonNullCells df = df.length * H
  | [], _ => by simp [nonNullCells]
  | nc :: rest, h => by
    have hh := h nc (List.mem_cons_self _ _)
    have hr := sum_null_add_nonNull H rest (fun x hx => h x (List.mem_cons_of_mem _ hx))
    have hc : nullCount nc.2 + nonNullCount nc.2 = H := by
      rw [nullCount_add_nonNullCount, hh]
    simp only [nonNullCells, List.map_cons, List.sum_cons, List.length_cons] at hr ⊢
    rw [Nat.succ_mul]
    omega

/-- The concrete frame separating the two completeness metrics: a numeric
column with one null next to a fully populated non-numeric column. -/
def dfC9 : DataFrame :=
  [("a", Column.numCol [some 1, none]), ("b", Column.strCol [some "x", some "y"])]

/-- C9: the two `check_data_completeness` operations are not equivalent — the
ingestion-stage version (loaders.py) is the fraction of non-null cells over
all columns, the post-transform version (validators.py) is the fraction over
numeric columns only, and on `dfC9` (one null among four cells, but one null
among two numeric cells) they return 3/4 and 1/2 respectively. -/
theorem C9_completeness_disagreement :
    (∀ df : DataFrame, (∀ nc ∈ df, colHeight nc.2 = dfHeight df) →
        Loaders.check_data_completeness df =
          if dfHeight df * df.length = 0 then 0
          else (nonNullCells df : ℚ) / ((dfHeight df * df.length : Nat) : ℚ))
    ∧ (∀ df : DataFrame, (∀ nc ∈ df, colHeight nc.2 = dfHeight df) →
        dfHeight df * df.length ≠ 0 →
        (df.filter (fun nc => isNumericCol nc.2)).length ≠ 0 →
        Validators.check_data_completeness df =
          (nonNullCells (df.filter (fun nc => isNumericCol nc.2)) : ℚ) /
            ((dfHeight df * (df.filter (fun nc => isNumericCol nc.2)).length : Nat) : ℚ))
    ∧ Loaders.check_data_completeness dfC9 = 3 / 4
    ∧ Validators.check_data_completeness dfC9 = 1 / 2
    ∧ Loaders.check_data_completeness dfC9 ≠ Validators.check_data_completeness dfC9 := by
  have hL : Loaders.check_data_completeness dfC9 = 3 / 4 := by
    rw [Loaders.check_data_completeness]
    norm_num [dfC9, dfHeight, colHeight, nullCount, List.countP_cons, List.countP_nil]
  have hV : Validators.check_data_completeness dfC9 = 1 / 2 := by
    rw [Validators.check_data_completeness]
    norm_num [dfC9, dfHeight, colHeight, nullCount, isNumericCol,
      List.countP_cons, List.countP_nil]
  refine ⟨?_, ?_, hL, hV, by rw [hL, hV]; norm_num⟩
  · intro df hwf
    rw [Loaders.check_data_completeness]
    by_cases hz : dfHeight df * df.length = 0
    · simp only [hz, if_pos rfl, if_true]
    · have hkey : (df.map (fun nc => nullCount nc.2)).sum + nonNullCells df
          = df.length * dfHeight df := sum_null_add_nonNull (dfHeight df) df hwf
      have hq : ((dfHeight df * df.length : Nat) : ℚ) ≠ 0 := by
        exact_mod_cast hz
      have h2 : ((df.map (fun nc => nullCount nc.2)).sum : ℚ) + (nonNullCells df : ℚ)
          = ((dfHeight df * df.length : Nat) : ℚ) := by
        rw [← Nat.cast_add, hkey, Nat.mul_comm df.length (dfHeight df)]
      simp only [hz, if_neg hz, if_false]
      rw [eq_div_iff hq, sub_mul, one_mul, div_mul_cancel₀ _ hq]
      linarith [h2]
  · intro df hwf hz hnz
    rw [Validators.check_data_completeness]
    have hnum : ∀ nc ∈ df.filter (fun nc => isNumericCol nc.2), colHeight nc.2 = dfHeight df :=
      fun nc hnc => hwf nc (List.mem_filter.mp hnc).1
    have hkey : ((df.filter (fun nc => isNumericCol nc.2)).map (fun nc => nullCount nc.2)).sum
          + nonNullCells (df.filter (fun nc => isNumericCol nc.2))
        = (df.filter (fun nc => isNumericCol nc.2)).length * dfHeight df :=
      sum_null_add_nonNull (dfHeight df) _ hnum
    have hz2 : dfHeight df * (df.filter (fun nc => isNumericCol nc.2)).length ≠ 0 := by
      have hd : dfHeight df ≠ 0 := fun h => hz (by rw [h]; ring)
      exact Nat.mul_ne_zero hd hnz
    have hq : ((dfHeight df * (df.filter (fun nc => isNumericCol nc.2)).length : Nat) : ℚ) ≠ 0 := by
      exact_mod_cast hz2
    have h2 : (((df.filter (fun nc => isNumericCol nc.2)).map (fun nc => nullCount nc.2)).sum : ℚ)
          + (nonNullCells (df.filter (fun nc => isNumericCol nc.2)) : ℚ)
        = ((dfHeight df * (df.filter (fun nc => isNumericCol nc.2)).length : Nat) : ℚ) := by
      rw [← Nat.cast_add, hkey,
        Nat.mul_comm (df.filter (fun nc => isNumericCol nc.2)).length (dfHeight df)]
    simp only [if_neg hz, if_neg hz2]
    rw [eq_div_iff hq, sub_mul, one_mul, div_mul_cancel₀ _ hq]
    linarith [h2]

/-- Witness for C9's general characterizations, at the concrete frame. -/
theorem C9_completeness_disagreement_witness :
    Loaders.check_data_completeness dfC9 =
        (if dfHeight dfC9 * dfC9.length = 0 then 0
         else (nonNullCells dfC9 : ℚ) / ((dfHeight dfC9 * dfC9.length : Nat) : ℚ))
    ∧ Validators.check_data_completeness dfC9 =
        (nonNullCells (dfC9.filter (fun nc => isNumericCol nc.2)) : ℚ) /
          ((dfHeight dfC9 * (dfC9.filter (fun nc => isNumericCol nc.2)).length : Nat) : ℚ) :=
  ⟨C9_completeness_disagreement.1 dfC9 (by decide),
   C9_completeness_disagreement.2.1 dfC9 (by decide) (by decide) (by decide)⟩

/-- The view emits no percentage when the primary value is absent. -/
theorem viewPercentage_none (total : Option ℚ) : viewPercentage total none = none := by
  cases total <;> rfl

/-- SQLite's two-decimal rounding preserves the interval `[0, 100]`. -/
theorem sqliteRound2_bounds {x : ℚ} (h0 : 0 ≤ x) (h1 : x ≤ 100) :
    0 ≤ sqliteRound2 x ∧ sqliteRound2 x ≤ 100 := by
  rw [sqliteRound2, if_pos h0]
  constructor
  · apply div_nonneg _ (by norm_num)
    have hfl : (0 : ℤ) ≤ ⌊x * 100 + 1 / 2⌋ := Int.floor_nonneg.mpr (by nlinarith)
    exact_mod_cast hfl
  · rw [div_le_iff (by norm_num : (0 : ℚ) < 100)]
    have hfl : ⌊x * 100 + 1 / 2⌋ ≤ 10000 := by
      rw [Int.floor_le_iff]
      push_cast
      nlinarith
    calc ((⌊x * 100 + 1 / 2⌋ : ℤ) : ℚ) ≤ ((10000 : ℤ) : ℚ) := by exact_mod_cast hfl
      _ = 100 * 100 := by norm_num

/-- Counterexample to C7 as stated: a database state reachable through the
system's own export path (validation never blocks the run, and neither the
cleaners nor the transformers bound primary loss by total loss) in which the
view produces `primary_percentage = 200 ∉ [0, 100]`: a threshold-30 tree-cover
row with loss 100 joined to a primary-forest row with loss 200. -/
theorem C7_counterexample :
    v_primary_forest_percentage
        (exportPath ⟨[2022], [⟨"Brazil", 30, some 1000, [some 100]⟩]⟩
          ⟨[2022], [⟨"Brazil", [some 200]⟩]⟩)
      = [⟨"Brazil", 2022, some 100, some 200, some 200⟩]
    ∧ ¬((200 : ℚ) ≤ 100) := by
  constructor
  · have hdb : exportPath ⟨[2022], [⟨"Brazil", 30, some 1000, [some 100]⟩]⟩
          ⟨[2022], [⟨"Brazil", [some 200]⟩]⟩
        = ⟨[⟨"Brazil", 30, some 1000, 2022, some 100, some 10, "VALID"⟩],
           [⟨"Brazil", 2022, 30, some 200, "LOSS_RECORDED"⟩]⟩ := by
      have hstr : stripChars (applyMappings "Brazil") = "Brazil" := by decide
      simp [exportPath, treeTransform, meltTreeRow, qualityFlag, fixNegTreeWide,
        cleanTreeWide, cleanPrimWide, primTransform, lossStatus, fixNegCell, hstr] <;>
        norm_num
    rw [hdb]
    have hround : sqliteRound2 200 = 200 := by
      rw [sqliteRound2]
      norm_num
    simp [v_primary_forest_percentage, viewPercentage, hround]
  · norm_num

/-- C7 as amended: the `[0, 100]` bound on non-null `primary_percentage` values
holds for exactly those database states in which every threshold-30 joined pair
has `0 ≤ primary_forest_loss_ha ≤ tree_cover_loss_ha`; the export path itself
does not establish that bound (see the counterexample, where a reachable state
yields 200). -/
theorem C7_view_bounds_amended :
    ∀ db : ForestDB,
      (∀ t ∈ db.fact_tree_cover_loss, ∀ p ∈ db.fact_primary_forest,
          t.threshold = 30 → p.country = t.country → p.year = t.year →
          ∀ tv pv : ℚ, t.tree_cover_loss_ha = some tv →
            p.primary_forest_loss_ha = some pv → 0 ≤ pv ∧ pv ≤ tv) →
      ∀ row ∈ v_primary_forest_percentage db, ∀ q : ℚ,
        row.primary_percentage = some q → 0 ≤ q ∧ q ≤ 100 := by
  intro db hbound row hrow q hq
  rw [v_primary_forest_percentage] at hrow
  obtain ⟨t, ht, hrow2⟩ := List.mem_flatMap.mp hrow
  obtain ⟨htmem, htb⟩ := List.mem_filter.mp ht
  have hthr : t.threshold = 30 := by simpa using htb
  cases hms : db.fact_primary_forest.filter
      (fun p => p.country == t.country && p.year == t.year) with
  | nil =>
    rw [hms] at hrow2
    have hrq : row.primary_percentage = viewPercentage t.tree_cover_loss_ha none := by
      rcases List.mem_singleton.mp hrow2 with rfl
      rfl
    rw [hrq, viewPercentage_none] at hq
    exact absurd hq (by simp)
  | cons p0 ps =>
    rw [hms] at hrow2
    obtain ⟨p, hp, hrweq⟩ := List.mem_map.mp hrow2
    have hpfil : p ∈ db.fact_primary_forest.filter
        (fun p => p.country == t.country && p.year == t.year) := by
      rw [hms]
      exact hp
    obtain ⟨hpmem, hpb⟩ := List.mem_filter.mp hpfil
    have hpb2 : p.country = t.country ∧ p.year = t.year := by
      simpa [Bool.and_eq_true, beq_iff_eq] using hpb
    have hpc : p.country = t.country := hpb2.1
    have hpy : p.year = t.year := hpb2.2
    have hq2 : viewPercentage t.tree_cover_loss_ha p.primary_forest_loss_ha = some q := by
      rw [← hq, ← hrweq]
    cases htv : t.tree_cover_loss_ha with
    | none => rw [htv] at hq2; exact absurd hq2 (by simp [viewPercentage])
    | some tv =>
      cases hpv : p.primary_forest_loss_ha with
      | none => rw [htv, hpv] at hq2; exact absurd hq2 (by simp [viewPercentage])
      | some pv =>
        rw [htv, hpv] at hq2
        rw [viewPercentage] at hq2
        by_cases ht0 : tv > 0
        · rw [if_pos ht0] at hq2
          have hqe : q = sqliteRound2 (pv / tv * 100) := (Option.some.inj hq2).symm
          obtain ⟨hpv0, hpvt⟩ := hbound t htmem p hpmem hthr hpc hpy tv pv htv hpv
          have hx0 : 0 ≤ pv / tv * 100 := by positivity
          have hx1 : pv / tv * 100 ≤ 100 := by
            rw [div_mul_eq_mul_div, div_le_iff ht0]
            nlinarith
          rw [hqe]
          exact sqliteRound2_bounds hx0 hx1
        · rw [if_neg ht0] at hq2
          exact absurd hq2 (by simp)

/-- Witness for C7's amended bound: at a well-bounded one-row database the view
row carries percentage 50, which the theorem places in the interval. -/
theorem C7_view_bounds_witness :
    (0 : ℚ) ≤ 50 ∧ (50 : ℚ) ≤ 100 := by
  have hround : sqliteRound2 50 = 50 := by
    rw [sqliteRound2]
    norm_num
  have hview : v_primary_forest_percentage
      ⟨[⟨"Brazil", 30, some 1000, 2022, some 100, some 10, "VALID"⟩],
       [⟨"Brazil", 2022, 30, some 50, "LOSS_RECORDED"⟩]⟩
      = [⟨"Brazil", 2022, some 100, some 50, some 50⟩] := by
    simp [v_primary_forest_percentage, viewPercentage, hround]
  refine C7_view_bounds_amended
      ⟨[⟨"Brazil", 30, some 1000, 2022, some 100, some 10, "VALID"⟩],
       [⟨"Brazil", 2022, 30, some 50, "LOSS_RECORDED"⟩]⟩
      ?_ ⟨"Brazil", 2022, some 100, some 50, some 50⟩ ?_ 50 rfl
  · intro t ht p hp h30 hc hy tv pv htv hpv
    rcases List.mem_singleton.mp ht with rfl
    rcases List.mem_singleton.mp hp with rfl
    have h1 : tv = 100 := by
      have := htv
      simp at this
      linarith [this]
    have h2 : pv = 50 := by
      have := hpv
      simp at this
      linarith [this]
    rw [h1, h2]
    norm_num
  · rw [hview]
    exact List.mem_singleton.mpr rfl

/-- Counterexample to C8 as stated: with an out-of-range threshold (40) the
handler does return guidance text without raising, but it is not true that no
database query is executed — the `year` default `get_latest_year()` is
evaluated eagerly by Python, so the latest-year query runs before the
threshold check. -/
theorem C8_counterexample :
    (handle_query_carbon_data ⟨"Brazil", some 2022, some 40⟩ ⟨[2020, 2024], []⟩).queriesRun
        = [maxYearSql]
    ∧ (handle_query_carbon_data ⟨"Brazil", some 2022, some 40⟩ ⟨[2020, 2024], []⟩).queriesRun
        ≠ ([] : List String)
    ∧ (handle_query_carbon_data ⟨"Brazil", some 2022, some 40⟩ ⟨[2020, 2024], []⟩).reply
        = .guidance ("Carbon data is only available for thresholds 30%, 50%, and 75%.\n\nYou requested "
            ++ toString (40 : Int) ++ "%. Please use 30, 50, or 75.") := by
  refine ⟨by decide, by decide, by decide⟩

/-- C8 as amended: for a threshold outside `{30, 50, 75}` the handler returns
the guidance text telling the caller to use 30, 50, or 75, without raising and
without executing the carbon lookup query — but it does execute the
latest-year query (the eagerly evaluated `year` default), so exactly one
database query runs; for a threshold in the set it runs the latest-year query
then the single-row carbon lookup, and any row it reports carries sink status
exactly when that row's net annual flux is negative. -/
theorem C8_handle_query_carbon_data_amended :
    ∀ (args : CarbonArgs) (db : CarbonDB),
      (args.threshold.getD 30 ∉ ([30, 50, 75] : List Int) →
        (handle_query_carbon_data args db).reply =
          .guidance ("Carbon data is only available for thresholds 30%, 50%, and 75%.\n\nYou requested "
            ++ toString (args.threshold.getD 30) ++ "%. Please use 30, 50, or 75.")
        ∧ (handle_query_carbon_data args db).queriesRun = [maxYearSql]
        ∧ carbonSql ∉ (handle_query_carbon_data args db).queriesRun)
      ∧ (args.threshold.getD 30 ∈ ([30, 50, 75] : List Int) →
        (handle_query_carbon_data args db).queriesRun = [maxYearSql, carbonSql]
        ∧ ∀ (b : Bool) (row : CarbonRow),
            (handle_query_carbon_data args db).reply = .report b row →
            row ∈ db.fact_carbon ∧ row.country = args.country
            ∧ row.threshold = args.threshold.getD 30
            ∧ (b = true ↔ row.carbon_net_flux_annual_avg < 0)) := by
  intro args db
  constructor
  · intro hbad
    rw [handle_query_carbon_data, if_neg hbad]
    refine ⟨rfl, rfl, ?_⟩
    intro hmem
    rcases List.mem_singleton.mp hmem with heq
    exact absurd heq (by decide)
  · intro hgood
    rw [handle_query_carbon_data, if_pos hgood]
    cases hres : db.fact_carbon.filter (fun r =>
        r.country == args.country &&
        some r.year == (match args.year with
          | some y => some y
          | none => get_latest_year db) &&
        r.threshold == args.threshold.getD 30) with
    | nil =>
      refine ⟨rfl, ?_⟩
      intro b row hrep
      exact absurd hrep (by simp)
    | cons row0 rows =>
      refine ⟨rfl, ?_⟩
      intro b row hrep
      have hb : b = decide (row0.carbon_net_flux_annual_avg < 0)
          ∧ row = row0 := by
        have h := hrep
        simp only [CarbonReply.report.injEq] at h
        exact ⟨h.1.symm, h.2.symm⟩
      obtain ⟨hbv, hrw⟩ := hb
      have hr0 : row0 ∈ db.fact_carbon.filter (fun r =>
          r.country == args.country &&
          some r.year == (match args.year with
            | some y => some y
            | none => get_latest_year db) &&
          r.threshold == args.threshold.getD 30) := by
        rw [hres]
        exact List.mem_cons_self _ _
      obtain ⟨hr0mem, hr0p⟩ := List.mem_filter.mp hr0
      have hr0p2 : row0.country = args.country ∧ row0.threshold = args.threshold.getD 30 := by
        simp only [Bool.and_eq_true, beq_iff_eq] at hr0p
        exact ⟨hr0p.1.1, hr0p.2⟩
      subst hrw
      refine ⟨hr0mem, hr0p2.1, hr0p2.2, ?_⟩
      rw [hbv]
      exact ⟨fun hd => of_decide_eq_true hd, fun hlt => decide_eq_true hlt⟩

/-- Witness for C8's amended statement: both branches at concrete invocations. -/
theorem C8_handle_query_carbon_data_witness :
    ((handle_query_carbon_data ⟨"Brazil", some 2022, some 40⟩ ⟨[2024], []⟩).queriesRun
        = [maxYearSql])
    ∧ ((handle_query_carbon_data ⟨"Brazil", some 2022, some 30⟩
          ⟨[2024], [⟨"Brazil", 2022, 30, -5⟩]⟩).queriesRun
        = [maxYearSql, carbonSql]) :=
  ⟨((C8_handle_query_carbon_data_amended ⟨"Brazil", some 2022, some 40⟩
      ⟨[2024], []⟩).1 (by decide)).2.1,
   ((C8_handle_query_carbon_data_amended ⟨"Brazil", some 2022, some 30⟩
      ⟨[2024], [⟨"Brazil", 2022, 30, -5⟩]⟩).2 (by decide)).1⟩

end NexusForest
